import Mathlib

/-!
# StellarNova limit-order engine: verification of the spec against the source

Shallow embedding of the parts of the StellarNova repository that the frozen
claims are about:

* the backend limit-order executor (`src/unnamed/part_012`,
  `LimitOrderExecutor`): order decoding (`getLimitOrder`), the per-order sweep
  step (`checkAndExecuteOrder`), the transaction-confirmation poll
  (`waitForTransaction`), the price-to-fraction conversion inside
  `executeOrder`, and `getStatus`;
* the backend HTTP surface and configuration (`src/unnamed/part_011`):
  the `/health` handler and `LIMIT_ORDER_CONFIG`;
* the frontend (`src/frontend/src/lib/stellarnova/limitOrders.ts`):
  `calculateTargetPriceWithDecimals` and the order decoder inside
  `getUserPendingOrders`.

Machine integers are modelled as `Nat`/`Int` (JavaScript `number` values in
the relevant ranges are exact integers; `BigInt` is unbounded), byte strings
as `List Nat` with every element `< 256`, and JavaScript floating-point price
arithmetic is idealised as exact rational (`ℚ`) arithmetic, matching the
spec's own "as real numbers" reading of the trigger comparison.
-/

/-! ## Byte-level encoding primitives

The MultiversX nested encoding used by the contract's `Order` struct:
big-endian fixed-width integers, fixed 32-byte addresses, and 4-byte
length-prefixed buffers / `BigUint` magnitudes.
-/

/-- Fixed-width big-endian encoding of `n` on `len` bytes
(the low `8*len` bits of `n`). -/
def beBytes : ℕ → ℕ → List ℕ
  | _, 0 => []
  | n, len + 1 => beBytes (n / 256) len ++ [n % 256]

/-- Big-endian value of a byte string (`Buffer.readBigUInt64BE` /
`readUInt32BE` / `readUInt16BE` all compute this on their slice). -/
def natFromBytes (l : List ℕ) : ℕ :=
  l.foldl (fun a b => 256 * a + b) 0

/-- Number of bytes in the minimal big-endian magnitude encoding of `n`
(0 bytes for 0, as in the MultiversX `BigUint` top-encoding). -/
def byteLen : ℕ → ℕ
  | 0 => 0
  | n + 1 => byteLen ((n + 1) / 256) + 1
decreasing_by exact Nat.div_lt_self (Nat.succ_pos n) (by norm_num)

/-- Minimal big-endian magnitude encoding of a natural number. -/
def magBytes (n : ℕ) : List ℕ := beBytes n (byteLen n)

/-- 4-byte big-endian length prefix followed by the bytes. -/
def lenPrefixed (b : List ℕ) : List ℕ := beBytes b.length 4 ++ b

@[simp] theorem beBytes_length (n len : ℕ) : (beBytes n len).length = len := by
  induction len generalizing n with
  | zero => rfl
  | succ k ih => simp [beBytes, ih]

theorem foldl_beBytes (len : ℕ) : ∀ (n a : ℕ),
    (beBytes n len).foldl (fun a b => 256 * a + b) a = a * 256 ^ len + n % 256 ^ len := by
  induction len with
  | zero => intro n a; simp [beBytes, Nat.mod_one]
  | succ k ih =>
    intro n a
    rw [beBytes, List.foldl_append, ih (n / 256) a]
    simp only [List.foldl_cons, List.foldl_nil]
    have hdiv : n % 256 ^ (k + 1) / 256 = n / 256 % 256 ^ k := by
      rw [pow_succ, mul_comm (256 ^ k) 256, Nat.mod_mul_right_div_self]
    have hmod : n % 256 ^ (k + 1) % 256 = n % 256 := by
      exact Nat.mod_mod_of_dvd n (dvd_pow_self 256 (Nat.succ_ne_zero k))
    have hsplit : n % 256 ^ (k + 1) = 256 * (n / 256 % 256 ^ k) + n % 256 := by
      conv_lhs => rw [← Nat.div_add_mod (n % 256 ^ (k + 1)) 256]
      rw [hdiv, hmod]
    rw [hsplit, pow_succ]
    ring

theorem natFromBytes_beBytes {n len : ℕ} (h : n < 256 ^ len) :
    natFromBytes (beBytes n len) = n := by
  unfold natFromBytes
  rw [foldl_beBytes, Nat.zero_mul, Nat.zero_add, Nat.mod_eq_of_lt h]

theorem lt_pow_byteLen (n : ℕ) : n < 256 ^ byteLen n := by
  induction n using Nat.strong_induction_on with
  | _ n ih =>
    match n with
    | 0 => simp [byteLen]
    | m + 1 =>
      rw [byteLen, pow_succ]
      have hlt : (m + 1) / 256 < m + 1 := Nat.div_lt_self (Nat.succ_pos m) (by norm_num)
      have h := ih ((m + 1) / 256) hlt
      have hdm := Nat.div_add_mod (m + 1) 256
      have hmod : (m + 1) % 256 < 256 := Nat.mod_lt _ (by norm_num)
      calc m + 1 = 256 * ((m + 1) / 256) + (m + 1) % 256 := hdm.symm
    _ < 256 * ((m + 1) / 256) + 256 := by omega
    _ = 256 * ((m + 1) / 256 + 1) := by ring
    _ ≤ 256 * 256 ^ byteLen ((m + 1) / 256) := by
          exact Nat.mul_le_mul_left 256 (by omega)
    _ = 256 ^ byteLen ((m + 1) / 256) * 256 := by ring

theorem byteLen_le {n k : ℕ} (h : n < 256 ^ k) : byteLen n ≤ k := by
  induction k generalizing n with
  | zero =>
    interval_cases n
    simp [byteLen]
  | succ k ih =>
    match n with
    | 0 => simp [byteLen]
    | m + 1 =>
      rw [byteLen]
      have : (m + 1) / 256 < 256 ^ k := by
        rw [Nat.div_lt_iff_lt_mul (by norm_num : 0 < 256)]
        calc m + 1 < 256 ^ (k + 1) := h
          _ = 256 ^ k * 256 := by rw [pow_succ]
      exact Nat.succ_le_succ (ih this)

@[simp] theorem natFromBytes_magBytes (n : ℕ) : natFromBytes (magBytes n) = n :=
  natFromBytes_beBytes (lt_pow_byteLen n)

@[simp] theorem magBytes_length (n : ℕ) : (magBytes n).length = byteLen n := by
  simp [magBytes]

/-! ## Stream readers

These mirror the offset/`slice` parsing of `LimitOrderExecutor.getLimitOrder`
and of the decode loop in `getUserPendingOrders`: each reader consumes a
prefix of the byte string and returns the value read together with the rest.
-/

/-- `buffer.readBigUInt64BE(offset); offset += 8`. -/
def readU64 (bs : List ℕ) : ℕ × List ℕ := (natFromBytes (bs.take 8), bs.drop 8)

/-- Read `n` raw bytes (`buffer.slice(offset, offset + n); offset += n`). -/
def readN (n : ℕ) (bs : List ℕ) : List ℕ × List ℕ := (bs.take n, bs.drop n)

/-- `readLengthPrefixed`: a 4-byte big-endian length, then that many bytes. -/
def readLP (bs : List ℕ) : List ℕ × List ℕ :=
  readN (natFromBytes (bs.take 4)) (bs.drop 4)

/-- `readBigUint`: a 4-byte length then a big-endian magnitude (the code
returns the decimal string of this value; a zero length yields `'0'`). -/
def readMag (bs : List ℕ) : ℕ × List ℕ :=
  (natFromBytes (readLP bs).1, (readLP bs).2)

/-- `buffer.readUInt16BE(offset); offset += 2`. -/
def readU16 (bs : List ℕ) : ℕ × List ℕ := (natFromBytes (bs.take 2), bs.drop 2)

/-- `buffer.readUInt8(offset); offset += 1`. -/
def readU8 (bs : List ℕ) : ℕ × List ℕ := (natFromBytes (bs.take 1), bs.drop 1)

theorem readU64_encode {n : ℕ} (r : List ℕ) (h : n < 256 ^ 8) :
    readU64 (beBytes n 8 ++ r) = (n, r) := by
  unfold readU64
  rw [List.take_append_of_le_length (by simp), List.take_of_length_le (by simp),
    List.drop_append_of_le_length (by simp)]
  simp [natFromBytes_beBytes h]

theorem readN_encode {l : List ℕ} {n : ℕ} (r : List ℕ) (h : l.length = n) :
    readN n (l ++ r) = (l, r) := by
  subst h
  unfold readN
  rw [List.take_append_of_le_length le_rfl, List.take_of_length_le le_rfl,
    List.drop_append_of_le_length le_rfl]
  simp

theorem readLP_encode {l : List ℕ} (r : List ℕ) (h : l.length < 256 ^ 4) :
    readLP (lenPrefixed l ++ r) = (l, r) := by
  unfold readLP lenPrefixed
  rw [List.append_assoc]
  rw [List.take_append_of_le_length (by simp), List.take_of_length_le (by simp),
    List.drop_append_of_le_length (by simp)]
  simp only [List.drop_of_length_le (le_of_eq (beBytes_length _ 4)), List.nil_append]
  rw [natFromBytes_beBytes h]
  exact readN_encode r rfl

theorem readMag_encode {n : ℕ} (r : List ℕ) (h : byteLen n < 256 ^ 4) :
    readMag (lenPrefixed (magBytes n) ++ r) = (n, r) := by
  unfold readMag
  rw [readLP_encode r (by simpa using h)]
  simp

theorem readU16_encode {n : ℕ} (r : List ℕ) (h : n < 256 ^ 2) :
    readU16 (beBytes n 2 ++ r) = (n, r) := by
  unfold readU16
  rw [List.take_append_of_le_length (by simp), List.take_of_length_le (by simp),
    List.drop_append_of_le_length (by simp)]
  simp [natFromBytes_beBytes h]

theorem readU8_encode (n : ℕ) (r : List ℕ) :
    readU8 (n :: r) = (n, r) := by
  unfold readU8
  simp [natFromBytes]

/-! ## The Order record and its serialisation -/

/-- The executor's `LimitOrder` record (`src/unnamed/part_012`, interface
`LimitOrder`).  Token identifiers and the owner address are kept as raw byte
strings (the code renders them as UTF-8 / hex strings); numeric fields are
the exact integer values the code parses. -/
structure LimitOrder where
  order_id : ℕ
  user : List ℕ
  from_token : List ℕ
  from_amount : ℕ
  to_token : List ℕ
  target_price_numerator : ℕ
  target_price_denominator : ℕ
  slippage_bp : ℕ
  created_at : ℕ
  expires_at : ℕ
  status : ℕ
deriving DecidableEq, Repr

/-- Modelled from the spec: the contract's `Order` emitter is not under
`src/` (only shell scripts and docs of the contract are in the repository),
so the reference encoding is taken from the normative byte-layout table of
§6 of the specification — `order_id` 8 bytes, `owner` 32 bytes fixed,
`from_token` / `from_amount` / `to_token` / `target_num` / `target_denom`
4-byte-length-prefixed, then `slippage_bp` 8 bytes, `expires_at` 8 bytes,
`status` 1 byte, `created_at` 8 bytes, all big-endian. -/
def encodeOrder (o : LimitOrder) : List ℕ :=
  beBytes o.order_id 8 ++
    (o.user ++
      (lenPrefixed o.from_token ++
        (lenPrefixed (magBytes o.from_amount) ++
          (lenPrefixed o.to_token ++
            (lenPrefixed (magBytes o.target_price_numerator) ++
              (lenPrefixed (magBytes o.target_price_denominator) ++
                (beBytes o.slippage_bp 8 ++
                  (beBytes o.expires_at 8 ++
                    (o.status :: beBytes o.created_at 8)))))))))

/-- A well-formed order: every fixed-width field fits its width, the owner
address is exactly 32 bytes, and variable-length fields fit their 4-byte
length prefix.  (The spec's data model: 64-bit `order_id` and timestamps,
`slippage_bp ≤ 10 000`, byte `status`, 64-bit-range amounts and prices.) -/
def WFOrder (o : LimitOrder) : Prop :=
  o.order_id < 256 ^ 8 ∧ o.user.length = 32 ∧
    o.from_token.length < 256 ^ 4 ∧ o.to_token.length < 256 ^ 4 ∧
    o.from_amount < 256 ^ 8 ∧ o.target_price_numerator < 256 ^ 8 ∧
    o.target_price_denominator < 256 ^ 8 ∧ o.slippage_bp < 256 ^ 8 ∧
    o.expires_at < 256 ^ 8 ∧ o.status < 256 ∧ o.created_at < 256 ^ 8

instance (o : LimitOrder) : Decidable (WFOrder o) := by
  unfold WFOrder; infer_instance

/-- The executor's order decoder, `LimitOrderExecutor.getLimitOrder`
(`src/unnamed/part_012`, lines 427–502), applied to the decoded base64
buffer: `readU64` order id, 32 fixed bytes of owner, length-prefixed
`from_token`, `from_amount`, `to_token`, `target_num`, `target_denom`, then
`slippage_bp` as a `u64` (8 bytes), `expires_at` (8 bytes), `status`
(1 byte), `created_at` (8 bytes).  The returned record's `order_id` is the
queried id `qid`, exactly as the code returns `order_id: orderId` (the
parsed first field is only logged). -/
def getLimitOrderDecode (qid : ℕ) (bs : List ℕ) : LimitOrder :=
  let r1 := readU64 bs
  let r2 := readN 32 r1.2
  let r3 := readLP r2.2
  let r4 := readMag r3.2
  let r5 := readLP r4.2
  let r6 := readMag r5.2
  let r7 := readMag r6.2
  let r8 := readU64 r7.2
  let r9 := readU64 r8.2
  let r10 := readU8 r9.2
  let r11 := readU64 r10.2
  { order_id := qid
    user := r2.1
    from_token := r3.1
    from_amount := r4.1
    to_token := r5.1
    target_price_numerator := r6.1
    target_price_denominator := r7.1
    slippage_bp := r8.1
    expires_at := r9.1
    status := r10.1
    created_at := r11.1 }

/-- What the frontend decode loop in `getUserPendingOrders`
(`src/frontend/src/lib/stellarnova/limitOrders.ts`, lines 495–578) extracts
from one encoded order. -/
structure FrontendOrder where
  orderId : ℕ
  user : List ℕ
  fromToken : List ℕ
  fromAmount : ℕ
  toToken : List ℕ
  targetPriceNum : ℕ
  targetPriceDenom : ℕ
  slippageBp : ℕ
  expiresAt : ℕ
deriving DecidableEq, Repr

/-- The frontend's per-order decoder (`getUserPendingOrders`): same fields
as the backend up to `target_denom`, but then it reads `slippageBp` with
`readUInt16BE` (2 bytes), skips 8 bytes it calls `created_at`, and reads
`expiresAt` as the next 8 bytes. -/
def getUserPendingOrdersDecode (bs : List ℕ) : FrontendOrder :=
  let r1 := readU64 bs
  let r2 := readN 32 r1.2
  let r3 := readLP r2.2
  let r4 := readMag r3.2
  let r5 := readLP r4.2
  let r6 := readMag r5.2
  let r7 := readMag r6.2
  let r8 := readU16 r7.2
  let r9 := readN 8 r8.2
  let r10 := readU64 r9.2
  { orderId := r1.1
    user := r2.1
    fromToken := r3.1
    fromAmount := r4.1
    toToken := r5.1
    targetPriceNum := r6.1
    targetPriceDenom := r7.1
    slippageBp := r8.1
    expiresAt := r10.1 }

/-! ## Round-trip lemmas for the two decoders -/

theorem readU64_encode_nil {n : ℕ} (h : n < 256 ^ 8) :
    readU64 (beBytes n 8) = (n, []) := by
  have := readU64_encode [] h
  simpa using this

theorem beBytes_add (a b : ℕ) : ∀ n : ℕ,
    beBytes n (a + b) = beBytes (n / 256 ^ b) a ++ beBytes n b := by
  induction b with
  | zero => intro n; simp [beBytes]
  | succ k ih =>
    intro n
    rw [show a + (k + 1) = (a + k) + 1 by omega, beBytes, ih (n / 256), beBytes,
      List.append_assoc, Nat.div_div_eq_div_mul, ← pow_succ']

theorem foldl_linear (l : List ℕ) : ∀ a : ℕ,
    l.foldl (fun a b => 256 * a + b) a =
      a * 256 ^ l.length + l.foldl (fun a b => 256 * a + b) 0 := by
  induction l with
  | nil => intro a; simp
  | cons b t ih =>
    intro a
    simp only [List.foldl_cons, List.length_cons]
    rw [ih (256 * a + b), ih (256 * 0 + b)]
    ring

theorem natFromBytes_append (l1 l2 : List ℕ) :
    natFromBytes (l1 ++ l2) = natFromBytes l1 * 256 ^ l2.length + natFromBytes l2 := by
  unfold natFromBytes
  rw [List.foldl_append, foldl_linear l2]

theorem natFromBytes_beBytes_mod (n len : ℕ) :
    natFromBytes (beBytes n len) = n % 256 ^ len := by
  unfold natFromBytes
  rw [foldl_beBytes]
  simp

theorem readU64_block {l : List ℕ} (r : List ℕ) (h : l.length = 8) :
    readU64 (l ++ r) = (natFromBytes l, r) := by
  unfold readU64
  rw [← h, List.take_append_of_le_length le_rfl, List.take_of_length_le le_rfl,
    List.drop_append_of_le_length le_rfl]
  simp

/-- The backend decoder inverts the reference encoding: on the encoding of a
well-formed order, queried under that order's id, `getLimitOrder`'s parse
returns every field unchanged. -/
theorem backendDecode_encode (o : LimitOrder) (h : WFOrder o) :
    getLimitOrderDecode o.order_id (encodeOrder o) = o := by
  obtain ⟨h1, h2, h3, h4, h5, h6, h7, h8, h9, h10, h11⟩ := h
  have hb5 : byteLen o.from_amount < 256 ^ 4 :=
    lt_of_le_of_lt (byteLen_le h5) (by norm_num)
  have hb6 : byteLen o.target_price_numerator < 256 ^ 4 :=
    lt_of_le_of_lt (byteLen_le h6) (by norm_num)
  have hb7 : byteLen o.target_price_denominator < 256 ^ 4 :=
    lt_of_le_of_lt (byteLen_le h7) (by norm_num)
  simp only [getLimitOrderDecode, encodeOrder]
  rw [readU64_encode _ h1, readN_encode _ h2, readLP_encode _ h3,
    readMag_encode _ hb5, readLP_encode _ h4, readMag_encode _ hb6,
    readMag_encode _ hb7, readU64_encode _ h8, readU64_encode _ h9,
    readU8_encode, readU64_encode_nil h11]

/-- What the frontend decoder actually extracts from the reference encoding
of a well-formed order: the fields up to `target_denom` come back unchanged,
but `slippageBp` is the big-endian value of the top two bytes of the 8-byte
`slippage_bp` field, and `expiresAt` is read from the 8 bytes spanning the
low 6 bytes of `expires_at`, the `status` byte and the top byte of
`created_at`. -/
theorem frontendDecode_encode (o : LimitOrder) (h : WFOrder o) :
    getUserPendingOrdersDecode (encodeOrder o) =
      { orderId := o.order_id
        user := o.user
        fromToken := o.from_token
        fromAmount := o.from_amount
        toToken := o.to_token
        targetPriceNum := o.target_price_numerator
        targetPriceDenom := o.target_price_denominator
        slippageBp := o.slippage_bp / 256 ^ 6
        expiresAt := o.expires_at % 256 ^ 6 * 256 ^ 2 + o.status * 256 + o.created_at / 256 ^ 7 } := by
  obtain ⟨h1, h2, h3, h4, h5, h6, h7, h8, h9, h10, h11⟩ := h
  have hb5 : byteLen o.from_amount < 256 ^ 4 :=
    lt_of_le_of_lt (byteLen_le h5) (by norm_num)
  have hb6 : byteLen o.target_price_numerator < 256 ^ 4 :=
    lt_of_le_of_lt (byteLen_le h6) (by norm_num)
  have hb7 : byteLen o.target_price_denominator < 256 ^ 4 :=
    lt_of_le_of_lt (byteLen_le h7) (by norm_num)
  -- split the three fixed-width tail fields at the offsets the frontend uses
  have hslip : beBytes o.slippage_bp 8 =
      beBytes (o.slippage_bp / 256 ^ 6) 2 ++ beBytes o.slippage_bp 6 := by
    have := beBytes_add 2 6 o.slippage_bp
    norm_num at this
    exact this
  have hexp : beBytes o.expires_at 8 =
      beBytes (o.expires_at / 256 ^ 6) 2 ++ beBytes o.expires_at 6 := by
    have := beBytes_add 2 6 o.expires_at
    norm_num at this
    exact this
  have hcr : beBytes o.created_at 8 =
      beBytes (o.created_at / 256 ^ 7) 1 ++ beBytes o.created_at 7 := by
    have := beBytes_add 1 7 o.created_at
    norm_num at this
    exact this
  have hslip2 : o.slippage_bp / 256 ^ 6 < 256 ^ 2 := by
    rw [Nat.div_lt_iff_lt_mul (by norm_num : 0 < (256 : ℕ) ^ 6)]
    calc o.slippage_bp < 256 ^ 8 := h8
      _ = 256 ^ 2 * 256 ^ 6 := by norm_num
  simp only [getUserPendingOrdersDecode, encodeOrder]
  rw [readU64_encode _ h1, readN_encode _ h2, readLP_encode _ h3,
    readMag_encode _ hb5, readLP_encode _ h4, readMag_encode _ hb6,
    readMag_encode _ hb7, hslip, List.append_assoc, readU16_encode _ hslip2]
  -- the 8 "created_at" bytes the frontend skips: low 6 of slippage + top 2 of expires_at
  rw [hexp]
  rw [show beBytes o.slippage_bp 6 ++
        ((beBytes (o.expires_at / 256 ^ 6) 2 ++ beBytes o.expires_at 6) ++
          (o.status :: beBytes o.created_at 8)) =
      (beBytes o.slippage_bp 6 ++ beBytes (o.expires_at / 256 ^ 6) 2) ++
        (beBytes o.expires_at 6 ++ (o.status :: beBytes o.created_at 8)) by
    simp [List.append_assoc]]
  rw [readN_encode _ (by simp)]
  -- the 8 "expires_at" bytes: low 6 of expires_at, status, top byte of created_at
  rw [hcr]
  rw [show beBytes o.expires_at 6 ++
        (o.status :: (beBytes (o.created_at / 256 ^ 7) 1 ++ beBytes o.created_at 7)) =
      (beBytes o.expires_at 6 ++ (o.status :: beBytes (o.created_at / 256 ^ 7) 1)) ++
        beBytes o.created_at 7 by
    simp [List.append_assoc]]
  rw [readU64_block _ (by simp)]
  have hval : natFromBytes
      (beBytes o.expires_at 6 ++ (o.status :: beBytes (o.created_at / 256 ^ 7) 1)) =
      o.expires_at % 256 ^ 6 * 256 ^ 2 + o.status * 256 + o.created_at / 256 ^ 7 := by
    rw [show (o.status :: beBytes (o.created_at / 256 ^ 7) 1) =
        [o.status] ++ beBytes (o.created_at / 256 ^ 7) 1 by simp]
    rw [natFromBytes_append, natFromBytes_append, natFromBytes_beBytes_mod]
    have hcr1 : o.created_at / 256 ^ 7 < 256 := by
      rw [Nat.div_lt_iff_lt_mul (by norm_num : 0 < (256 : ℕ) ^ 7)]
      calc o.created_at < 256 ^ 8 := h11
        _ = 256 * 256 ^ 7 := by norm_num
    rw [natFromBytes_beBytes_mod]
    simp [natFromBytes, pow_one]
    norm_num at hcr1 ⊢
    omega
  rw [hval]

/-! ## The executor's sweep step

`LimitOrderExecutor.checkAndExecuteOrder` (`src/unnamed/part_012`,
lines 144–214).  The in-memory `attemptedOrders : Map<number, number>`
(order id → `Date.now()` of the last attempt, in milliseconds) is modelled
as an association list with JavaScript `Map` semantics: `set` updates in
place or appends, `delete` removes the entry, `get` looks the key up.
The network environment of one call — the fetched order, the fetched spot
price, and the fate of the submitted transaction — is passed in explicitly.
-/

/-- `attemptedOrders.get k` -/
def mapGet : List (ℕ × ℤ) → ℕ → Option ℤ
  | [], _ => none
  | e :: rest, k => if e.1 = k then some e.2 else mapGet rest k

/-- `attemptedOrders.set k v` -/
def mapSet : List (ℕ × ℤ) → ℕ → ℤ → List (ℕ × ℤ)
  | [], k, v => [(k, v)]
  | e :: rest, k, v => if e.1 = k then (k, v) :: rest else e :: mapSet rest k v

/-- `attemptedOrders.delete k` -/
def mapDelete : List (ℕ × ℤ) → ℕ → List (ℕ × ℤ)
  | [], _ => []
  | e :: rest, k => if e.1 = k then rest else e :: mapDelete rest k

theorem mapDelete_sublist (m : List (ℕ × ℤ)) (k : ℕ) : (mapDelete m k).Sublist m := by
  induction m with
  | nil => simp [mapDelete]
  | cons e rest ih =>
    by_cases h : e.1 = k
    · simp only [mapDelete, if_pos h]
      exact List.sublist_cons_self e rest
    · simp only [mapDelete, if_neg h]
      exact ih.cons₂ e

theorem mapGet_eq_none_of_not_mem {m : List (ℕ × ℤ)} {k : ℕ}
    (h : k ∉ m.map Prod.fst) : mapGet m k = none := by
  induction m with
  | nil => rfl
  | cons e rest ih =>
    simp only [List.map_cons, List.mem_cons, not_or] at h
    have hne : ¬(e.1 = k) := fun hc => h.1 hc.symm
    simp only [mapGet, if_neg hne]
    exact ih h.2

@[simp] theorem mapGet_mapDelete (m : List (ℕ × ℤ)) (k : ℕ)
    (huniq : (m.map Prod.fst).Nodup) : mapGet (mapDelete m k) k = none := by
  apply mapGet_eq_none_of_not_mem
  induction m with
  | nil => simp [mapDelete]
  | cons e rest ih =>
    simp only [List.map_cons, List.nodup_cons] at huniq
    by_cases h : e.1 = k
    · simp only [mapDelete, if_pos h]
      subst h
      exact huniq.1
    · simp only [mapDelete, if_neg h, List.map_cons, List.mem_cons, not_or]
      refine ⟨fun hc => h hc.symm, ?_⟩
      exact fun hc => (ih huniq.2) hc

@[simp] theorem mapGet_mapSet (m : List (ℕ × ℤ)) (k : ℕ) (v : ℤ) :
    mapGet (mapSet m k v) k = some v := by
  induction m with
  | nil => simp [mapSet, mapGet]
  | cons e rest ih =>
    by_cases h : e.1 = k
    · simp [mapSet, if_pos h, mapGet]
    · simp [mapSet, if_neg h, mapGet, if_neg h, ih]

/-- `COOLDOWN`: `this.cooldownPeriod = 300000` ms (5 minutes), never
reassigned in the class. -/
def COOLDOWN_MS : ℤ := 300000

/-- The cooldown guard of `checkAndExecuteOrder`:
`if (lastAttempt && (now - lastAttempt) < this.cooldownPeriod)`.
A recorded timestamp of `0` is falsy in JavaScript, so it does not
activate the guard. -/
def cooldownActive (attempted : List (ℕ × ℤ)) (orderId : ℕ) (now : ℤ) : Bool :=
  match mapGet attempted orderId with
  | none => false
  | some lastAttempt => lastAttempt != 0 && decide (now - lastAttempt < COOLDOWN_MS)

/-- One `getTransaction` poll inside `waitForTransaction`: the status is
successful, failed, or not yet decided (a fetch error is caught and treated
like a pending transaction). -/
inductive TxStatusPoll where
  | success
  | failed
  | pending
deriving DecidableEq, Repr

/-- Outcome of the bounded confirmation poll. -/
inductive ConfirmOutcome where
  | success
  | failed
  | timeout
deriving DecidableEq, Repr

/-- `LimitOrderExecutor.waitForTransaction` (`src/unnamed/part_012`,
lines 306–329): up to `maxAttempts = 20` polls; the first decisive status
ends the loop; exhausting the polls is a timeout.  In every case the
function returns normally — it never throws. -/
def waitForTransactionOutcome (polls : List TxStatusPoll) : ConfirmOutcome :=
  go (polls.take 20)
where
  go : List TxStatusPoll → ConfirmOutcome
    | [] => .timeout
    | .success :: _ => .success
    | .failed :: _ => .failed
    | .pending :: rest => go rest

/-- The environment of one `executeOrder` call: whether the
build/sign/`sendTransaction` phase completed without an exception, and the
statuses seen by the confirmation poll. -/
structure SubmitEnv where
  sendOk : Bool
  polls : List TxStatusPoll
deriving DecidableEq, Repr

/-- How one `executeOrder` call ends, as observed by its caller: it throws
iff the submission phase throws; once the transaction is sent,
`waitForTransaction` always returns normally, whatever the confirmation
outcome. -/
inductive AttemptResult where
  | threw
  | completed (confirmation : ConfirmOutcome)
deriving DecidableEq, Repr

def execAttempt (env : SubmitEnv) : AttemptResult :=
  if env.sendOk then .completed (waitForTransactionOutcome env.polls) else .threw

/-- What `checkAndExecuteOrder` did with one order. -/
inductive SweepAction where
  | skippedCooldown
  | droppedMissing
  | droppedExpired
  | skippedNoPrice
  | triggered (r : AttemptResult)
  | waitingPrice
deriving DecidableEq, Repr

/-- `LimitOrderExecutor.checkAndExecuteOrder` (`src/unnamed/part_012`,
lines 144–214) for a single order id, parameterised by the call's network
environment: `fetched` is `getLimitOrder`'s result, `price` is
`getTokenPairPrice`'s result (a spot price, idealised as a rational), and
`env` the fate of the execute transaction.  Returns the action taken and
the updated `attemptedOrders` map.  Price comparison is
`parseFloat(num)/parseFloat(denom)` against the current price, idealised
over ℚ; `nowSeconds = Math.floor(now / 1000)` with `now = Date.now()`
in milliseconds. -/
def checkAndExecuteOrder (attempted : List (ℕ × ℤ)) (orderId : ℕ) (now : ℤ)
    (fetched : Option LimitOrder) (price : Option ℚ) (env : SubmitEnv) :
    SweepAction × List (ℕ × ℤ) :=
  if cooldownActive attempted orderId now then (.skippedCooldown, attempted)
  else
    match fetched with
    | none => (.droppedMissing, mapDelete attempted orderId)
    | some order =>
      if (order.expires_at : ℤ) < Int.fdiv now 1000 then
        (.droppedExpired, mapDelete attempted orderId)
      else
        match price with
        | none => (.skippedNoPrice, attempted)
        | some p =>
          if p ≤ (order.target_price_numerator : ℚ) / (order.target_price_denominator : ℚ) then
            let attempted1 := mapSet attempted orderId now
            match execAttempt env with
            | .threw => (.triggered .threw, attempted1)
            | .completed c => (.triggered (.completed c), mapDelete attempted1 orderId)
          else (.waitingPrice, attempted)

/-! ## Price-to-fraction conversion

Backend: inside `LimitOrderExecutor.executeOrder` (`src/unnamed/part_012`,
lines 229–247).  Frontend: `calculateTargetPriceWithDecimals`
(`src/frontend/src/lib/stellarnova/limitOrders.ts`, lines 382–434).
Floating-point multiplication by a power of ten and `Math.floor` are
idealised as exact rational arithmetic and `Int.floor`.
-/

/-- The backend conversion: `PRECISION = Math.min(6, 15 - |Δ|)`,
`denominator = BigInt(10) ** BigInt(PRECISION)` and
`numerator = BigInt(Math.floor(price * 10 ** (PRECISION + Δ)))`.
When `PRECISION` is negative the `BigInt` exponentiation throws a
`RangeError` (there is no `PriceOutOfRange` value anywhere in the code),
modelled as `none`. -/
def executeOrderPriceFraction (currentPrice : ℚ) (fromTokenDecimals toTokenDecimals : ℕ) :
    Option (ℤ × ℕ) :=
  let decimalAdjustment : ℤ := (toTokenDecimals : ℤ) - (fromTokenDecimals : ℤ)
  let PRECISION : ℤ := min 6 (15 - |decimalAdjustment|)
  if PRECISION < 0 then none
  else
    let denominator : ℕ := 10 ^ PRECISION.toNat
    let priceScaled : ℚ := currentPrice * (10 : ℚ) ^ (PRECISION + decimalAdjustment)
    some (⌊priceScaled⌋, denominator)

/-- The frontend conversion: same `PRECISION`, but
`denominator = Math.pow(10, PRECISION)` is an ordinary number — fractional
when `PRECISION < 0` — and no error path exists (only a console warning
when the numerator leaves the float-safe range). -/
def calculateTargetPriceWithDecimals (targetPrice : ℚ) (fromDecimals toDecimals : ℕ) :
    ℤ × ℚ :=
  let decimalAdjustment : ℤ := (toDecimals : ℤ) - (fromDecimals : ℤ)
  let PRECISION : ℤ := min 6 (15 - |decimalAdjustment|)
  let denominator : ℚ := (10 : ℚ) ^ PRECISION
  let totalExponent : ℤ := PRECISION + decimalAdjustment
  let numerator : ℤ := ⌊targetPrice * (10 : ℚ) ^ totalExponent⌋
  (numerator, denominator)

/-! ## Configuration and status surface (`src/unnamed/part_011`) -/

/-- Leading-decimal-digit model of JavaScript `parseInt` on the strings the
configuration actually passes it: the longest digit prefix, `none` when
there is none (`NaN`). -/
def parseIntModel (s : String) : Option ℕ :=
  let digits := s.data.takeWhile Char.isDigit
  if digits.isEmpty then none
  else some (digits.foldl (fun a c => 10 * a + (c.toNat - 48)) 0)

/-- `LIMIT_ORDER_CONFIG.checkIntervalSeconds =
parseInt(process.env.LIMIT_ORDER_CHECK_INTERVAL || '30')`: an absent or
empty variable falls back to `'30'`. -/
def checkIntervalSeconds (env : Option String) : Option ℕ :=
  parseIntModel (match env with
    | none => "30"
    | some s => if s = "" then "30" else s)

/-- The executor's in-memory state: `isRunning`, the hard-coded
`checkInterval = 30000` ms, the `attemptedOrders` map, the hard-coded
`cooldownPeriod = 300000` ms, and the optional loaded wallet address. -/
structure ExecutorState where
  isRunning : Bool
  checkInterval : ℕ
  attemptedOrders : List (ℕ × ℤ)
  cooldownPeriod : ℕ
  executorAddress : Option String
deriving DecidableEq, Repr

/-- `new LimitOrderExecutor()`: the constructor takes no configuration;
`checkInterval` is the literal `30000` and `cooldownPeriod` the literal
`300000`. -/
def LimitOrderExecutor.init : ExecutorState :=
  { isRunning := false
    checkInterval := 30000
    attemptedOrders := []
    cooldownPeriod := 300000
    executorAddress := none }

/-- The sweep period of the running executor, as a function of the
`LIMIT_ORDER_CHECK_INTERVAL` environment value: `start()` schedules
`setInterval(..., this.checkInterval)` on the instance built by
`new LimitOrderExecutor()` in `src/unnamed/part_011`; no code path writes
the configured value into the instance. -/
def sweepPeriodMs (_env : Option String) : ℕ :=
  LimitOrderExecutor.init.checkInterval

/-- JSON values, for the HTTP response bodies. -/
inductive Json where
  | str : String → Json
  | num : ℤ → Json
  | bool : Bool → Json
  | null : Json
  | obj : List (String × Json) → Json

/-- `CONTRACT_ADDRESS` from the backend config. -/
def CONTRACT_ADDRESS : String :=
  "erd1qqqqqqqqqqqqqpgqhcmms89zn6997pvpv9g7ckpcxz4mnjn088zqtvnz29"

/-- `LimitOrderExecutor.getStatus` (`src/unnamed/part_012`, lines 602–611). -/
def getStatusJson (s : ExecutorState) : Json :=
  .obj [("running", .bool s.isRunning),
        ("executorAddress", match s.executorAddress with
          | some a => .str a
          | none => .null),
        ("checkInterval", .num s.checkInterval),
        ("cooldownPeriod", .num s.cooldownPeriod),
        ("attemptedOrdersCount", .num s.attemptedOrders.length),
        ("contractAddress", .str CONTRACT_ADDRESS)]

/-- The `GET /health` handler (`src/unnamed/part_011`, lines 17–26).
`res.json(body)` with no explicit status responds `200` (Express default);
the body nests the config's `enabled` flag and the **whole** `getStatus()`
object under the key `limitOrderExecutor`, its `running` sub-key holding
that object rather than the boolean flag. -/
def healthHandler (enabled : Bool) (s : ExecutorState) : ℕ × Json :=
  (200,
    .obj [("status", .str "ok"),
          ("service", .str "stellarnova-backend"),
          ("limitOrderExecutor",
            .obj [("enabled", .bool enabled),
                  ("running", getStatusJson s)])])

/-- Field lookup in a JSON object (`none` on non-objects/missing keys). -/
def jsonField (j : Json) (k : String) : Option Json :=
  match j with
  | .obj fields => (fields.find? (fun e => e.1 = k)).map Prod.snd
  | _ => none

/-! ## Claim theorems -/

/-- C1: during a sweep, for every fetched Pending, unexpired order that is
not on cooldown and whose spot price `p` was obtained, the executor submits
an `executeLimitOrder` transaction if and only if
`p ≤ target_num / target_denom` (compared as real numbers); ties trigger,
and nothing is submitted when `p > target`.  The hypothesis
`order.status = 0` records the claim's restriction to Pending orders (the
code applies the same comparison to any fetched order), and
`0 < target_price_denominator` records well-formedness of the stored price
(the data model requires `denominator > 0`; with a zero denominator
JavaScript float semantics and ℚ semantics part ways). -/
theorem trigger_iff_price_le_target
    (attempted : List (ℕ × ℤ)) (orderId : ℕ) (now : ℤ) (order : LimitOrder)
    (p : ℚ) (env : SubmitEnv)
    (hcool : cooldownActive attempted orderId now = false)
    (hpending : order.status = 0)
    (hexp : ¬((order.expires_at : ℤ) < Int.fdiv now 1000))
    (hdenom : 0 < order.target_price_denominator) :
    (∃ r, (checkAndExecuteOrder attempted orderId now (some order) (some p) env).1 =
        .triggered r) ↔
      p ≤ (order.target_price_numerator : ℚ) / (order.target_price_denominator : ℚ) := by
  unfold checkAndExecuteOrder
  simp only [hcool, Bool.false_eq_true, if_false]
  rw [if_neg hexp]
  by_cases htrig :
      p ≤ (order.target_price_numerator : ℚ) / (order.target_price_denominator : ℚ)
  · rw [if_pos htrig]
    cases hE : execAttempt env <;> simp [htrig]
  · rw [if_neg htrig]
    simp [htrig]

/-- Witness for C1, with the spot price exactly at the target
(`p = target = 0.155`): the tie triggers a submission. -/
theorem trigger_iff_price_le_target_witness :
    ∃ r, (checkAndExecuteOrder [] 1 1700000000000 (some
        { order_id := 1, user := List.replicate 32 0, from_token := [85, 83, 68, 67],
          from_amount := 10000000, to_token := [87, 69, 71, 76, 68],
          target_price_numerator := 155, target_price_denominator := 1000,
          slippage_bp := 500, created_at := 1700000000, expires_at := 2000000000,
          status := 0 })
      (some (155 / 1000)) ⟨true, [.success]⟩).1 = .triggered r :=
  (trigger_iff_price_le_target [] 1 1700000000000 _ (155 / 1000) ⟨true, [.success]⟩
    (by decide) rfl (by decide) (by decide)).mpr (by norm_num)

/-- C2: with `Δ = decimals_to − decimals_from` and
`PRECISION = min(6, 15 − |Δ|)` (the conversion's domain, `|Δ| ≤ 15`), the
conversion returns denominator `10^PRECISION` and numerator
`⌊p · 10^(PRECISION+Δ)⌋`, and the backend `executeOrder` and the frontend
`calculateTargetPriceWithDecimals` compute the same pair (the backend's
`ℕ` denominator equals the frontend's rational one). -/
theorem priceFraction_spec_and_agreement (p : ℚ) (df dt : ℕ)
    (h : |(dt : ℤ) - (df : ℤ)| ≤ 15) :
    executeOrderPriceFraction p df dt =
        some (⌊p * (10 : ℚ) ^ (min 6 (15 - |(dt : ℤ) - (df : ℤ)|) + ((dt : ℤ) - (df : ℤ)))⌋,
          10 ^ (min 6 (15 - |(dt : ℤ) - (df : ℤ)|)).toNat) ∧
      calculateTargetPriceWithDecimals p df dt =
        (⌊p * (10 : ℚ) ^ (min 6 (15 - |(dt : ℤ) - (df : ℤ)|) + ((dt : ℤ) - (df : ℤ)))⌋,
          (10 : ℚ) ^ min 6 (15 - |(dt : ℤ) - (df : ℤ)|)) ∧
      ((10 ^ (min 6 (15 - |(dt : ℤ) - (df : ℤ)|)).toNat : ℕ) : ℚ) =
        (10 : ℚ) ^ min 6 (15 - |(dt : ℤ) - (df : ℤ)|) := by
  have hP : (0 : ℤ) ≤ min 6 (15 - |(dt : ℤ) - (df : ℤ)|) := by
    have h15 : (0 : ℤ) ≤ 15 - |(dt : ℤ) - (df : ℤ)| := by linarith
    exact le_min (by norm_num) h15
  refine ⟨?_, rfl, ?_⟩
  · unfold executeOrderPriceFraction
    rw [if_neg (not_lt.mpr hP)]
  · push_cast
    rw [← zpow_natCast (10 : ℚ), Int.toNat_of_nonneg hP]

/-- Witness for C2 at the spec's scenario S1: `p = 0.155`, USDC (6) →
WEGLD (18); both conversions give `(155_000_000_000_000, 1_000)`. -/
theorem priceFraction_spec_and_agreement_witness :
    executeOrderPriceFraction (155 / 1000) 6 18 = some (155000000000000, 1000) ∧
      calculateTargetPriceWithDecimals (155 / 1000) 6 18 = (155000000000000, 1000) := by
  obtain ⟨h1, h2, _⟩ := priceFraction_spec_and_agreement (155 / 1000) 6 18 (by decide)
  refine ⟨?_, ?_⟩
  · rw [h1]; norm_num; rfl
  · rw [h2]; norm_num

/-- C3 (amended): if the executor has a recorded attempt time `t` for an
order — with `t ≠ 0`, since the executor stores `Date.now()` and the
JavaScript guard `if (lastAttempt && ...)` treats a recorded `0` as absent —
then processing that order again at any `now` with `now − t < COOLDOWN`
(300 000 ms) skips it entirely: no order fetch, no price fetch, no second
transaction, and the map is unchanged. -/
theorem cooldown_skips_within_window
    (attempted : List (ℕ × ℤ)) (orderId : ℕ) (t now : ℤ)
    (fetched : Option LimitOrder) (price : Option ℚ) (env : SubmitEnv)
    (hrec : mapGet attempted orderId = some t) (ht : t ≠ 0)
    (hwin : now - t < COOLDOWN_MS) :
    checkAndExecuteOrder attempted orderId now fetched price env =
      (.skippedCooldown, attempted) := by
  unfold checkAndExecuteOrder
  have hactive : cooldownActive attempted orderId now = true := by
    unfold cooldownActive
    rw [hrec]
    simp [ht, hwin]
  rw [if_pos hactive]

/-- Witness for C3: an attempt recorded at `t = 1 700 000 000 000` ms,
re-processed 1 second later with a triggerable order and price available:
the order is skipped and the map unchanged. -/
theorem cooldown_skips_within_window_witness :
    checkAndExecuteOrder [(7, 1700000000000)] 7 1700000001000
      (some { order_id := 7, user := List.replicate 32 0, from_token := [65],
              from_amount := 1, to_token := [66], target_price_numerator := 155,
              target_price_denominator := 1000, slippage_bp := 500,
              created_at := 1700000000, expires_at := 2000000000, status := 0 })
      (some (1 / 10)) ⟨true, [.success]⟩ = (.skippedCooldown, [(7, 1700000000000)]) :=
  cooldown_skips_within_window [(7, 1700000000000)] 7 1700000000000 1700000001000
    _ _ _ (by decide) (by decide) (by decide)

/-- Evaluation of the trigger path of `checkAndExecuteOrder`: when the
cooldown guard is inactive, the order is fetched and unexpired, and the
price condition holds, the attempt is recorded before execution and the
entry is deleted again exactly when `executeOrder` returns normally. -/
theorem checkAndExecuteOrder_trigger
    (attempted : List (ℕ × ℤ)) (orderId : ℕ) (now : ℤ) (order : LimitOrder)
    (p : ℚ) (env : SubmitEnv)
    (hcool : cooldownActive attempted orderId now = false)
    (hexp : ¬((order.expires_at : ℤ) < Int.fdiv now 1000))
    (htrig : p ≤ (order.target_price_numerator : ℚ) / (order.target_price_denominator : ℚ)) :
    checkAndExecuteOrder attempted orderId now (some order) (some p) env =
      (match execAttempt env with
        | .threw => (.triggered .threw, mapSet attempted orderId now)
        | .completed c =>
            (.triggered (.completed c), mapDelete (mapSet attempted orderId now) orderId)) := by
  unfold checkAndExecuteOrder
  simp only [hcool, Bool.false_eq_true, if_false]
  rw [if_neg hexp, if_pos htrig]

/-- Counterexample to C3 as frozen: the claim quantifies over every recorded
attempt time `t`; at `t = 0` (the Unix epoch — `Date.now()`'s zero value)
the JavaScript guard `if (lastAttempt && ...)` is falsy, so re-processing
the order 1000 ms later (well inside the 300 s window) goes straight
through the cooldown check and submits a second transaction. -/
theorem cooldown_zero_timestamp_retriggers :
    (checkAndExecuteOrder [(9, 0)] 9 1000
      (some { order_id := 9, user := List.replicate 32 0, from_token := [65],
              from_amount := 1, to_token := [66], target_price_numerator := 155,
              target_price_denominator := 1000, slippage_bp := 500,
              created_at := 0, expires_at := 2000000000, status := 0 })
      (some (1 / 10)) ⟨true, [.success]⟩).1 = .triggered (.completed .success) := by
  rw [checkAndExecuteOrder_trigger _ _ _ _ _ _ (by decide) (by decide) (by norm_num)]
  rfl

/-- C4 (code bug): after the execute transaction is submitted and the
confirmation poll reports *failure* — or times out — the cooldown entry is
removed all the same.  `waitForTransaction` returns normally on a failed or
pending transaction (it only logs), so `executeOrder` does not throw and
`checkAndExecuteOrder` runs `attemptedOrders.delete(orderId)`, contradicting
both the spec ("On failure or timeout: leave the cooldown entry in place")
and the code's own comment ("Keep in cooldown map - will retry after
cooldown period").  Concretely: order 11 triggers at `now = 1.7·10^12` ms,
the transaction is sent, confirmation reports `failed` (resp. polls
exhaust): the resulting map is empty — the entry `(11, now)` is gone. -/
theorem cooldown_removed_despite_failed_confirmation :
    checkAndExecuteOrder [] 11 1700000000000
        (some { order_id := 11, user := List.replicate 32 0, from_token := [65],
                from_amount := 1, to_token := [66], target_price_numerator := 155,
                target_price_denominator := 1000, slippage_bp := 500,
                created_at := 1700000000, expires_at := 2000000000, status := 0 })
        (some (1 / 10)) ⟨true, [.failed]⟩ =
        (.triggered (.completed .failed), []) ∧
      checkAndExecuteOrder [] 11 1700000000000
        (some { order_id := 11, user := List.replicate 32 0, from_token := [65],
                from_amount := 1, to_token := [66], target_price_numerator := 155,
                target_price_denominator := 1000, slippage_bp := 500,
                created_at := 1700000000, expires_at := 2000000000, status := 0 })
        (some (1 / 10)) ⟨true, []⟩ =
        (.triggered (.completed .timeout), []) := by
  constructor <;>
    · rw [checkAndExecuteOrder_trigger _ _ _ _ _ _ (by decide) (by decide) (by norm_num)]
      rfl

/-- Counterexample to C5 as frozen: at `|Δ| = 15` (e.g. 0 → 15 decimals)
`PRECISION = min(6, 0) = 0` is not negative, and both conversions return
the pair `(⌊p·10^15⌋, 1)` instead of reporting any error. -/
theorem priceFraction_delta15_returns_pair :
    executeOrderPriceFraction 1 0 15 = some (1000000000000000, 1) ∧
      calculateTargetPriceWithDecimals 1 0 15 = (1000000000000000, 1) := by
  constructor
  · unfold executeOrderPriceFraction
    norm_num
  · unfold calculateTargetPriceWithDecimals
    norm_num

/-- C5 (amended): no `PriceOutOfRange` error exists in the code.  The
backend conversion fails — with a JavaScript `RangeError` from the negative
`BigInt` exponent — exactly when `PRECISION = min(6, 15 − |Δ|)` is
negative, i.e. `|Δ| ≥ 16` (not `|Δ| ≥ 15`); the frontend conversion never
fails: for `|Δ| ≥ 16` it still returns a pair, whose denominator
`10^PRECISION` is a fraction below 1. -/
theorem priceFraction_range_error_iff (p : ℚ) (df dt : ℕ) :
    (executeOrderPriceFraction p df dt = none ↔ 16 ≤ |(dt : ℤ) - (df : ℤ)|) ∧
      (16 ≤ |(dt : ℤ) - (df : ℤ)| → (calculateTargetPriceWithDecimals p df dt).2 < 1) := by
  constructor
  · unfold executeOrderPriceFraction
    by_cases hneg : min 6 (15 - |(dt : ℤ) - (df : ℤ)|) < 0
    · rw [if_pos hneg]
      simp only [true_iff]
      omega
    · rw [if_neg hneg]
      simp only [reduceCtorEq, false_iff, not_le]
      omega
  · intro h
    unfold calculateTargetPriceWithDecimals
    simp only
    have hneg : min 6 (15 - |(dt : ℤ) - (df : ℤ)|) < 0 := by omega
    exact zpow_lt_one_of_neg₀ (by norm_num) hneg

/-- Witness for C5 (amended) at `|Δ| = 16` (0 → 16 decimals): the backend
conversion yields no pair, the frontend one a denominator `< 1`. -/
theorem priceFraction_range_error_iff_witness :
    executeOrderPriceFraction 1 0 16 = none ∧
      (calculateTargetPriceWithDecimals 1 0 16).2 < 1 :=
  ⟨(priceFraction_range_error_iff 1 0 16).1.mpr (by norm_num),
    (priceFraction_range_error_iff 1 0 16).2 (by norm_num)⟩

/-- C6: the executor's order decoder inverts the normative `Order` byte
layout — after `order_id` (8 bytes), `owner` (32 bytes fixed) and the
length-prefixed `from_token`, `from_amount`, `to_token`, `target_num` and
`target_denom` fields it reads `slippage_bp` as 8 bytes, then `expires_at`
(8 bytes), then `status` (1 byte), then `created_at` (8 bytes) — so that
decoding the reference encoding of any well-formed order returns that
order's fields unchanged. -/
theorem getLimitOrder_inverts_reference_encoding (o : LimitOrder) (h : WFOrder o) :
    getLimitOrderDecode o.order_id (encodeOrder o) = o :=
  backendDecode_encode o h

/-- A concrete well-formed order (the spec's S1 values: 10 USDC for WEGLD
at target 0.155, 5 % slippage, one hour of validity). -/
def s1Order : LimitOrder :=
  { order_id := 42
    user := List.replicate 32 7
    from_token := [85, 83, 68, 67, 45, 99, 55, 54, 102, 49, 102]
    from_amount := 10000000
    to_token := [87, 69, 71, 76, 68, 45, 98, 100, 52, 100, 55, 57]
    target_price_numerator := 155000000000000
    target_price_denominator := 1000
    slippage_bp := 500
    created_at := 1700000000
    expires_at := 1700003600
    status := 0 }

/-- Witness for C6: decoding the reference encoding of `s1Order` returns it
unchanged. -/
theorem getLimitOrder_inverts_reference_encoding_witness :
    getLimitOrderDecode s1Order.order_id (encodeOrder s1Order) = s1Order :=
  getLimitOrder_inverts_reference_encoding s1Order (by decide)

/-- C7 (amended): a fetched order is treated as expired only **strictly**
after its expiry — the code's guard is `nowSeconds > order.expires_at`, with
`nowSeconds = ⌊now/1000⌋` — and in that case its cooldown entry is dropped
and the order is skipped without a price fetch or a submission.  The second
conjunct: with distinct keys (a JavaScript `Map` invariant) the entry is
really gone. -/
theorem expired_order_dropped
    (attempted : List (ℕ × ℤ)) (orderId : ℕ) (now : ℤ) (order : LimitOrder)
    (price : Option ℚ) (env : SubmitEnv)
    (hcool : cooldownActive attempted orderId now = false)
    (hexp : (order.expires_at : ℤ) < Int.fdiv now 1000) :
    checkAndExecuteOrder attempted orderId now (some order) price env =
        (.droppedExpired, mapDelete attempted orderId) ∧
      ((attempted.map Prod.fst).Nodup →
        mapGet (mapDelete attempted orderId) orderId = none) := by
  constructor
  · unfold checkAndExecuteOrder
    simp only [hcool, Bool.false_eq_true, if_false]
    rw [if_pos hexp]
  · intro hnd
    exact mapGet_mapDelete attempted orderId hnd

/-- Witness for C7 (amended): one second past expiry the order is dropped,
its cooldown entry removed, and nothing is submitted. -/
theorem expired_order_dropped_witness :
    checkAndExecuteOrder [(3, 5)] 3 2000000001000
        (some { order_id := 3, user := List.replicate 32 0, from_token := [65],
                from_amount := 1, to_token := [66], target_price_numerator := 155,
                target_price_denominator := 1000, slippage_bp := 500,
                created_at := 1700000000, expires_at := 2000000000, status := 0 })
        none ⟨true, []⟩ = (.droppedExpired, []) ∧
      mapGet (mapDelete [(3, 5)] 3) 3 = none := by
  have h := expired_order_dropped [(3, 5)] 3 2000000001000
    { order_id := 3, user := List.replicate 32 0, from_token := [65],
      from_amount := 1, to_token := [66], target_price_numerator := 155,
      target_price_denominator := 1000, slippage_bp := 500,
      created_at := 1700000000, expires_at := 2000000000, status := 0 }
    none ⟨true, []⟩ (by decide) (by decide)
  exact ⟨h.1, h.2 (by decide)⟩

/-- Counterexample to C7 as frozen: the claim includes the boundary
`now = expires_at` exactly, but the code's strict `>` lets that order
through — at `now = 2 000 000 000 000` ms (`nowSeconds = expires_at =
2 000 000 000`) the executor fetches the price and submits a transaction
instead of dropping the order. -/
theorem expiry_boundary_still_processes :
    (checkAndExecuteOrder [(3, 100)] 3 2000000000000
      (some { order_id := 3, user := List.replicate 32 0, from_token := [65],
              from_amount := 1, to_token := [66], target_price_numerator := 155,
              target_price_denominator := 1000, slippage_bp := 500,
              created_at := 1700000000, expires_at := 2000000000, status := 0 })
      (some (1 / 10)) ⟨true, [.success]⟩).1 = .triggered (.completed .success) := by
  rw [checkAndExecuteOrder_trigger _ _ _ _ _ _ (by decide) (by decide) (by norm_num)]
  rfl

/-- C8 (amended): the executor's sweep period is the hard-coded
`checkInterval = 30000` ms (30 s) of `new LimitOrderExecutor()` for every
value of the `LIMIT_ORDER_CHECK_INTERVAL` environment variable; the
variable is parsed into `LIMIT_ORDER_CONFIG.checkIntervalSeconds` (default
30) but only logged — no code path applies it to the executor. -/
theorem sweep_period_hardcoded (env : Option String) :
    sweepPeriodMs env = 30000 ∧ checkIntervalSeconds none = some 30 :=
  ⟨rfl, by decide⟩

/-- Counterexample to C8 as frozen: configuring a 60-second sweep period
(`LIMIT_ORDER_CHECK_INTERVAL = "60"`) is read into the configuration, yet
the running executor still waits 30 000 ms — not the configured
60 000 ms — between sweeps. -/
theorem configured_interval_not_applied :
    checkIntervalSeconds (some "60") = some 60 ∧
      sweepPeriodMs (some "60") = 30000 ∧ (30000 : ℕ) ≠ 60 * 1000 :=
  ⟨by decide, rfl, by decide⟩

/-- C9 (amended): `GET /health` always answers 200 with body
`{status: 'ok', service: 'stellarnova-backend', limitOrderExecutor:
{enabled, running}}`, where `enabled` is the config's flag and `running` is
the **full** `getStatus()` object — whose own `running` field carries the
executor's boolean running state. -/
theorem health_response_shape (enabled : Bool) (s : ExecutorState) :
    (healthHandler enabled s).1 = 200 ∧
      jsonField (healthHandler enabled s).2 "status" = some (.str "ok") ∧
      jsonField (healthHandler enabled s).2 "service" =
        some (.str "stellarnova-backend") ∧
      ((jsonField (healthHandler enabled s).2 "limitOrderExecutor").bind
        (fun j => jsonField j "enabled")) = some (.bool enabled) ∧
      (((jsonField (healthHandler enabled s).2 "limitOrderExecutor").bind
        (fun j => jsonField j "running")).bind
        (fun j => jsonField j "running")) = some (.bool s.isRunning) :=
  ⟨rfl, rfl, rfl, rfl, rfl⟩

/-- Counterexample to C9 as frozen: the body of `/health` is **not** of the
shape `{status, service, executor: {enabled, running}}` with boolean
`enabled`/`running` — the third key is `limitOrderExecutor`, and its
`running` member is the whole status object, not the boolean running
state (shown here on the freshly constructed executor with the feature
disabled). -/
theorem health_body_not_claimed_shape :
    ¬ ∃ (s1 s2 : String) (b1 b2 : Bool),
      (healthHandler false LimitOrderExecutor.init).2 =
        Json.obj [("status", Json.str s1), ("service", Json.str s2),
          ("executor", Json.obj [("enabled", Json.bool b1),
            ("running", Json.bool b2)])] := by
  rintro ⟨s1, s2, b1, b2, h⟩
  simp only [healthHandler, getStatusJson, LimitOrderExecutor.init, Json.obj.injEq,
    List.cons.injEq, Prod.mk.injEq] at h
  exact absurd h.2.2.1.1 (by simp)

/-- C10 (amended): on the reference encoding of any well-formed order the
two decoders agree on every field up to `target_denom`, but not on
`slippage_bp` and `expires_at`: the backend returns them exactly, while the
frontend returns `slippageBp = ⌊slippage_bp / 2^48⌋` (the top two bytes of
the 8-byte field read as a u16) and `expiresAt = (expires_at mod 2^48)·2^16
+ status·2^8 + ⌊created_at / 2^56⌋` (8 bytes read across the field
boundaries after skipping 8 bytes). -/
theorem frontend_backend_decoder_relation (o : LimitOrder) (h : WFOrder o) :
    (getLimitOrderDecode o.order_id (encodeOrder o)).slippage_bp = o.slippage_bp ∧
      (getLimitOrderDecode o.order_id (encodeOrder o)).expires_at = o.expires_at ∧
      (getUserPendingOrdersDecode (encodeOrder o)).slippageBp =
        o.slippage_bp / 256 ^ 6 ∧
      (getUserPendingOrdersDecode (encodeOrder o)).expiresAt =
        o.expires_at % 256 ^ 6 * 256 ^ 2 + o.status * 256 + o.created_at / 256 ^ 7 := by
  rw [backendDecode_encode o h, frontendDecode_encode o h]
  exact ⟨rfl, rfl, rfl, rfl⟩

/-- A concrete well-formed pending order for C10: 5 % slippage
(`slippage_bp = 500`), expiring at `1 700 003 600`. -/
def c10Order : LimitOrder :=
  { order_id := 12
    user := List.replicate 32 9
    from_token := [85, 83, 68, 67]
    from_amount := 10000000
    to_token := [87, 69, 71, 76, 68]
    target_price_numerator := 155000000000000
    target_price_denominator := 1000
    slippage_bp := 500
    created_at := 1700000000
    expires_at := 1700003600
    status := 0 }

/-- Witness for C10 (amended), at `c10Order`. -/
theorem frontend_backend_decoder_relation_witness :
    (getLimitOrderDecode c10Order.order_id (encodeOrder c10Order)).slippage_bp =
        c10Order.slippage_bp ∧
      (getLimitOrderDecode c10Order.order_id (encodeOrder c10Order)).expires_at =
        c10Order.expires_at ∧
      (getUserPendingOrdersDecode (encodeOrder c10Order)).slippageBp =
        c10Order.slippage_bp / 256 ^ 6 ∧
      (getUserPendingOrdersDecode (encodeOrder c10Order)).expiresAt =
        c10Order.expires_at % 256 ^ 6 * 256 ^ 2 + c10Order.status * 256 +
          c10Order.created_at / 256 ^ 7 :=
  frontend_backend_decoder_relation c10Order (by decide)

/-- Counterexample to C10 as frozen: on the reference encoding of
`c10Order` the frontend decoder does **not** return the same `slippage_bp`
and the same `expires_at` as the backend decoder — its slippage comes out
as `⌊500 / 2^48⌋ = 0` and its expiry as `1 700 003 600 · 2^16`. -/
theorem decoders_disagree_on_slippage_and_expiry :
    ¬((getUserPendingOrdersDecode (encodeOrder c10Order)).slippageBp =
        (getLimitOrderDecode c10Order.order_id (encodeOrder c10Order)).slippage_bp ∧
      (getUserPendingOrdersDecode (encodeOrder c10Order)).expiresAt =
        (getLimitOrderDecode c10Order.order_id (encodeOrder c10Order)).expires_at) := by
  rintro ⟨h1, _⟩
  rw [backendDecode_encode c10Order (by decide),
    frontendDecode_encode c10Order (by decide)] at h1
  norm_num [c10Order] at h1
